import Mathlib

/-!
Verification of the `OneOrMany<T>` non-empty collection type from
`rig-core/src/one_or_many.rs`, shallowly embedded in Lean 4.

The Rust struct
```
pub struct OneOrMany<T> { first: T, rest: Vec<T> }
```
becomes a Lean structure with a `first` field and a `rest : List T`.
Fallible operations (`many`, `merge`, `try_map`) return `Except`;
`Vec::insert`, which panics on an out-of-bounds index, is modelled as an
`Option`-returning function (`none` = panic).  The three iterator
adapters (`Iter`, `IntoIter`, `IterMut`) are each modelled as an explicit
state machine with a `next` function mirroring the Rust `next` bodies;
since Lean has no reference types, all three carry the elements by value.
The serde codec is modelled over an explicit JSON-like `Value` wire type,
with the element codec for `T` passed in as a function, mirroring how
serde threads `T: Serialize / Deserialize`.
-/

/-- Error type for when trying to create a OneOrMany object with an
empty vector (`EmptyListError` in the source). -/
inductive EmptyListError where
  | mk
deriving DecidableEq, Repr

/-- The fixed display message of `EmptyListError`
(from the `#[error(...)]` attribute). -/
def EmptyListError.message : EmptyListError → String
  | .mk => "Cannot create OneOrMany with an empty vector."

/-- `struct OneOrMany<T> { first: T, rest: Vec<T> }`. -/
structure OneOrMany (T : Type) where
  first : T
  rest : List T
deriving DecidableEq, Repr

namespace OneOrMany

/-- The logical sequence denoted by a `OneOrMany<T>`: `[first] ++ rest`. -/
def toList (c : OneOrMany T) : List T :=
  c.first :: c.rest

/-- `pub fn push(&mut self, item: T) { self.rest.push(item); }` -/
def push (c : OneOrMany T) (item : T) : OneOrMany T :=
  { c with rest := c.rest ++ [item] }

/-- `Vec::insert(index, element)`: shifts elements after `index` right;
panics (here: `none`) when `index > len`. -/
def vecInsert : List T → Nat → T → Option (List T)
  | xs, 0, item => some (item :: xs)
  | [], _ + 1, _ => none
  | x :: xs, i + 1, item => (vecInsert xs i item).map (x :: ·)

/-- `pub fn insert(&mut self, index: usize, item: T)`: if `index == 0`,
`mem::replace` the first element and insert the old first at the front of
`rest`; otherwise insert into `rest` at `index - 1`.  `none` models the
panic of the underlying `Vec::insert`. -/
def insert (c : OneOrMany T) (index : Nat) (item : T) : Option (OneOrMany T) :=
  if index = 0 then
    (vecInsert c.rest 0 c.first).map fun r => { first := item, rest := r }
  else
    (vecInsert c.rest (index - 1) item).map fun r => { first := c.first, rest := r }

/-- `pub fn len(&self) -> usize { 1 + self.rest.len() }` -/
def len (c : OneOrMany T) : Nat :=
  1 + c.rest.length

/-- `pub fn is_empty(&self) -> bool { false }` -/
def is_empty (_ : OneOrMany T) : Bool :=
  false

/-- `pub fn one(item: T) -> Self { OneOrMany { first: item, rest: vec![] } }` -/
def one (item : T) : OneOrMany T :=
  { first := item, rest := [] }

/-- `pub fn many(items: Vec<T>) -> Result<Self, EmptyListError>`: the first
element of the iterator becomes `first` (or the call fails if there is
none), the remainder is collected into `rest`. -/
def many (items : List T) : Except EmptyListError (OneOrMany T) :=
  match items with
  | [] => .error .mk
  | item :: rest => .ok { first := item, rest := rest }

/-- `pub fn map<U, F>(self, op: F) -> OneOrMany<U>`: applies `op` to
`first`, then maps it over `rest`. -/
def map (op : T → U) (c : OneOrMany T) : OneOrMany U :=
  { first := op c.first, rest := c.rest.map op }

/-- `pub fn try_map<U, E, F>(self, op: F) -> Result<OneOrMany<U>, E>`:
`op(self.first)?`, then `rest` mapped and collected through
`Result<Vec<_>, E>` (short-circuiting). -/
def tryMap (op : T → Except E U) (c : OneOrMany T) : Except E (OneOrMany U) :=
  match op c.first with
  | .error e => .error e
  | .ok first =>
    match c.rest.mapM op with
    | .error e => .error e
    | .ok rest => .ok { first := first, rest := rest }

end OneOrMany

/-- State of the borrowed iterator
`struct Iter<'a, T> { first: Option<&'a T>, rest: slice::Iter<'a, T> }`.
References are carried by value; the remaining slice iterator is the
list of elements not yet yielded. -/
structure Iter (T : Type) where
  first : Option T
  rest : List T

/-- `Iter::next`: `first.take()` if present, else `rest.next()`. -/
def Iter.next : Iter T → Option (T × Iter T)
  | ⟨some f, rest⟩ => some (f, ⟨none, rest⟩)
  | ⟨none, []⟩ => none
  | ⟨none, r :: rs⟩ => some (r, ⟨none, rs⟩)

/-- State of the consuming iterator
`struct IntoIter<T> { first: Option<T>, rest: vec::IntoIter<T> }`. -/
structure IntoIter (T : Type) where
  first : Option T
  rest : List T

/-- `IntoIter::next`: `first.take()` if present, else `rest.next()`. -/
def IntoIter.next : IntoIter T → Option (T × IntoIter T)
  | ⟨some f, rest⟩ => some (f, ⟨none, rest⟩)
  | ⟨none, []⟩ => none
  | ⟨none, r :: rs⟩ => some (r, ⟨none, rs⟩)

/-- State of the mutable iterator
`struct IterMut<'a, T> { first: Option<&'a mut T>, rest: slice::IterMut<'a, T> }`. -/
structure IterMut (T : Type) where
  first : Option T
  rest : List T

/-- `IterMut::next`: `first.take()` if present, else `rest.next()`. -/
def IterMut.next : IterMut T → Option (T × IterMut T)
  | ⟨some f, rest⟩ => some (f, ⟨none, rest⟩)
  | ⟨none, []⟩ => none
  | ⟨none, r :: rs⟩ => some (r, ⟨none, rs⟩)

/-- Measure used to show that draining an iterator terminates. -/
def Iter.size (it : Iter T) : Nat :=
  (if it.first.isSome then 1 else 0) + it.rest.length

/-- The full sequence of elements obtained by calling `next` on an `Iter`
until it yields `None`. -/
def Iter.drain (it : Iter T) : List T :=
  match h : it.next with
  | none => []
  | some (x, it') => x :: it'.drain
termination_by it.size
decreasing_by
  rcases it with ⟨first, rest⟩
  rcases first with _ | f
  · rcases rest with _ | ⟨r, rs⟩
    · simp [Iter.next] at h
    · simp [Iter.next] at h
      simp [Iter.size, ← h]
  · simp [Iter.next] at h
    simp [Iter.size, ← h]

def IntoIter.size (it : IntoIter T) : Nat :=
  (if it.first.isSome then 1 else 0) + it.rest.length

/-- The full sequence of elements obtained by calling `next` on an
`IntoIter` until it yields `None`. -/
def IntoIter.drain (it : IntoIter T) : List T :=
  match h : it.next with
  | none => []
  | some (x, it') => x :: it'.drain
termination_by it.size
decreasing_by
  rcases it with ⟨first, rest⟩
  rcases first with _ | f
  · rcases rest with _ | ⟨r, rs⟩
    · simp [IntoIter.next] at h
    · simp [IntoIter.next] at h
      simp [IntoIter.size, ← h]
  · simp [IntoIter.next] at h
    simp [IntoIter.size, ← h]

def IterMut.size (it : IterMut T) : Nat :=
  (if it.first.isSome then 1 else 0) + it.rest.length

/-- The full sequence of elements obtained by calling `next` on an
`IterMut` until it yields `None`. -/
def IterMut.drain (it : IterMut T) : List T :=
  match h : it.next with
  | none => []
  | some (x, it') => x :: it'.drain
termination_by it.size
decreasing_by
  rcases it with ⟨first, rest⟩
  rcases first with _ | f
  · rcases rest with _ | ⟨r, rs⟩
    · simp [IterMut.next] at h
    · simp [IterMut.next] at h
      simp [IterMut.size, ← h]
  · simp [IterMut.next] at h
    simp [IterMut.size, ← h]

namespace OneOrMany

/-- `pub fn iter(&self) -> Iter<T>`: `first: Some(&self.first),
rest: self.rest.iter()`. -/
def iter (c : OneOrMany T) : Iter T :=
  { first := some c.first, rest := c.rest }

/-- `fn into_iter(self) -> IntoIter<T>`: `first: Some(self.first),
rest: self.rest.into_iter()`. -/
def intoIter (c : OneOrMany T) : IntoIter T :=
  { first := some c.first, rest := c.rest }

/-- `pub fn iter_mut(&mut self) -> IterMut<T>`: `first: Some(&mut
self.first), rest: self.rest.iter_mut()`. -/
def iterMut (c : OneOrMany T) : IterMut T :=
  { first := some c.first, rest := c.rest }

/-- `pub fn merge(one_or_many_items: Vec<OneOrMany<T>>) -> Result<Self,
EmptyListError>`: flat-maps each container's `into_iter()` into one
vector, then applies `many`. -/
def merge (items : List (OneOrMany T)) : Except EmptyListError (OneOrMany T) :=
  many (items.flatMap fun c => c.intoIter.drain)

end OneOrMany

/-!
## Serde codec model

A JSON-like wire value.  `serde_json`-style self-describing input drives
`deserialize_any`, which dispatches on the observed shape: an array calls
`visit_seq`, a string calls `visit_str`/`visit_string`, a map calls
`visit_map`; any other shape hits the default `Visitor` methods, which
fail with an invalid-type error mentioning the `expecting` message.
-/

/-- A JSON-like wire value. -/
inductive Value where
  | str (s : String)
  | num (n : Int)
  | boolean (b : Bool)
  | null
  | arr (elems : List Value)
  | obj (fields : List (String × Value))

/-- Deserialization errors surfaced through the serde framework:
an invalid-length error (`de::Error::invalid_length`), an unsupported
shape (default visitor method naming the `expecting` message), or an
error from `T`'s own `Deserialize` impl. -/
inductive DeError (E : Type) where
  | invalidLength (got : Nat) (expected : String)
  | invalidType (shape : String) (expected : String)
  | elem (e : E)
deriving DecidableEq, Repr

/-- The `expecting` message of `OneOrManyVisitor`. -/
def oneOrManyExpecting : String :=
  "a sequence of at least one element or a single element"

namespace OneOrMany

/-- `impl Serialize for OneOrMany<T>`: `serialize_seq` over `self.iter()`,
emitting `first` then `rest` as one sequence.  `encT` plays the role of
`T`'s own `Serialize` impl. -/
def serialize (encT : T → Value) (c : OneOrMany T) : Value :=
  .arr (c.iter.drain.map encT)

/-- `OneOrManyVisitor::visit_seq`: the first `next_element()` becomes
`first` (an empty sequence fails with `invalid_length(0, &self)`), the
remaining elements are pushed into `rest` in order.  `decT` plays the
role of `T`'s own `Deserialize` impl; its errors propagate through `?`. -/
def visitSeq (decT : Value → Except E T) (elems : List Value) :
    Except (DeError E) (OneOrMany T) :=
  match elems with
  | [] => .error (.invalidLength 0 oneOrManyExpecting)
  | v :: vs =>
    match (decT v).mapError DeError.elem with
    | .error e => .error e
    | .ok first =>
      match vs.mapM (fun v => (decT v).mapError DeError.elem) with
      | .error e => .error e
      | .ok rest => .ok { first := first, rest := rest }

/-- `impl Deserialize for OneOrMany<T>` via `deserialize_any` with
`OneOrManyVisitor`: a sequence goes to `visit_seq`; a string goes to
`visit_str`/`visit_string`, which decodes a single `T` from the scalar
and wraps it with `one`; a map goes to `visit_map`, which decodes a
single `T` from the keyed value and wraps it with `one`; any other shape
fails through the default visitor methods. -/
def deserialize (decT : Value → Except E T) : Value → Except (DeError E) (OneOrMany T)
  | .arr elems => visitSeq decT elems
  | .str s => ((decT (.str s)).mapError DeError.elem).map one
  | .obj fields => ((decT (.obj fields)).mapError DeError.elem).map one
  | .num _ => .error (.invalidType "integer" oneOrManyExpecting)
  | .boolean _ => .error (.invalidType "boolean" oneOrManyExpecting)
  | .null => .error (.invalidType "null" oneOrManyExpecting)

end OneOrMany

/-!
## Basic lemmas about draining the three iterators
-/

theorem Iter.drain_ref_none (rest : List T) :
    Iter.drain ⟨none, rest⟩ = rest := by
  induction rest with
  | nil =>
    rw [Iter.drain]
    split
    · rfl
    next x it' h => simp [Iter.next] at h
  | cons r rs ih =>
    rw [Iter.drain]
    split
    next h => simp [Iter.next] at h
    next x it' h =>
      simp only [Iter.next, Option.some.injEq, Prod.mk.injEq] at h
      rw [← h.1, ← h.2, ih]

theorem Iter.drain_ref_some (f : T) (rest : List T) :
    Iter.drain ⟨some f, rest⟩ = f :: rest := by
  rw [Iter.drain]
  split
  next h => simp [Iter.next] at h
  next x it' h =>
    simp only [Iter.next, Option.some.injEq, Prod.mk.injEq] at h
    rw [← h.1, ← h.2, Iter.drain_ref_none]

theorem IntoIter.drain_own_none (rest : List T) :
    IntoIter.drain ⟨none, rest⟩ = rest := by
  induction rest with
  | nil =>
    rw [IntoIter.drain]
    split
    · rfl
    next x it' h => simp [IntoIter.next] at h
  | cons r rs ih =>
    rw [IntoIter.drain]
    split
    next h => simp [IntoIter.next] at h
    next x it' h =>
      simp only [IntoIter.next, Option.some.injEq, Prod.mk.injEq] at h
      rw [← h.1, ← h.2, ih]

theorem IntoIter.drain_own_some (f : T) (rest : List T) :
    IntoIter.drain ⟨some f, rest⟩ = f :: rest := by
  rw [IntoIter.drain]
  split
  next h => simp [IntoIter.next] at h
  next x it' h =>
    simp only [IntoIter.next, Option.some.injEq, Prod.mk.injEq] at h
    rw [← h.1, ← h.2, IntoIter.drain_own_none]

theorem IterMut.drain_none (rest : List T) :
    IterMut.drain ⟨none, rest⟩ = rest := by
  induction rest with
  | nil =>
    rw [IterMut.drain]
    split
    · rfl
    next x it' h => simp [IterMut.next] at h
  | cons r rs ih =>
    rw [IterMut.drain]
    split
    next h => simp [IterMut.next] at h
    next x it' h =>
      simp only [IterMut.next, Option.some.injEq, Prod.mk.injEq] at h
      rw [← h.1, ← h.2, ih]

theorem IterMut.drain_some (f : T) (rest : List T) :
    IterMut.drain ⟨some f, rest⟩ = f :: rest := by
  rw [IterMut.drain]
  split
  next h => simp [IterMut.next] at h
  next x it' h =>
    simp only [IterMut.next, Option.some.injEq, Prod.mk.injEq] at h
    rw [← h.1, ← h.2, IterMut.drain_none]

theorem OneOrMany.iter_drain (c : OneOrMany T) :
    c.iter.drain = c.toList :=
  Iter.drain_ref_some c.first c.rest

theorem OneOrMany.intoIter_drain (c : OneOrMany T) :
    c.intoIter.drain = c.toList :=
  IntoIter.drain_own_some c.first c.rest

theorem OneOrMany.iterMut_drain (c : OneOrMany T) :
    c.iterMut.drain = c.toList :=
  IterMut.drain_some c.first c.rest

/-!
## Helper lemmas
-/

namespace OneOrMany

theorem vecInsert_isSome (xs : List T) (i : Nat) (x : T) :
    (vecInsert xs i x).isSome = true ↔ i ≤ xs.length := by
  induction xs generalizing i with
  | nil =>
    cases i with
    | zero => simp [vecInsert]
    | succ j => simp [vecInsert]
  | cons a as ih =>
    cases i with
    | zero => simp [vecInsert]
    | succ j =>
      have hmap : (vecInsert (a :: as) (j + 1) x).isSome = (vecInsert as j x).isSome := by
        simp only [vecInsert]
        cases vecInsert as j x <;> rfl
      rw [hmap, ih, List.length_cons]
      omega

theorem vecInsert_eq_some {xs ys : List T} {i : Nat} {x : T}
    (h : vecInsert xs i x = some ys) :
    ys = xs.take i ++ x :: xs.drop i := by
  induction xs generalizing i ys with
  | nil =>
    cases i with
    | zero =>
      simp only [vecInsert, Option.some.injEq] at h
      simp [← h]
    | succ j => simp [vecInsert] at h
  | cons a as ih =>
    cases i with
    | zero =>
      simp only [vecInsert, Option.some.injEq] at h
      simp [← h]
    | succ j =>
      simp only [vecInsert, Option.map_eq_some'] at h
      obtain ⟨zs, hz, hzs⟩ := h
      rw [← hzs, ih hz]
      simp

theorem vecInsert_length {xs ys : List T} {i : Nat} {x : T}
    (h : vecInsert xs i x = some ys) : ys.length = xs.length + 1 := by
  rw [vecInsert_eq_some h]
  have hle : i ≤ xs.length := by
    have := (vecInsert_isSome xs i x).mp (by rw [h]; rfl)
    exact this
  simp
  omega

theorem insert_toList (c : OneOrMany T) (i : Nat) (x : T) :
    (c.insert i x).map toList = vecInsert c.toList i x := by
  cases i with
  | zero => simp [insert, vecInsert, toList]
  | succ j =>
    simp only [insert, toList, vecInsert, Option.map_map]
    cases h : vecInsert c.rest j x <;> simp [h, toList, Function.comp]

theorem many_eq_ok {l : List T} {c : OneOrMany T} :
    many l = .ok c ↔ l = c.toList := by
  cases l with
  | nil =>
    simp only [many, toList]
    constructor
    · intro h; cases h
    · intro h; cases h
  | cons a as =>
    simp only [many, toList, Except.ok.injEq]
    constructor
    · intro h; rw [← h]
    · intro h
      cases c
      cases h
      rfl

end OneOrMany

/-- If `mapM` over `Except` succeeds, the input and output lists are
pointwise related by success of the function. -/
theorem exceptMapM_ok {E A B : Type} {f : A → Except E B} :
    ∀ {l : List A} {ts : List B}, l.mapM f = .ok ts →
      List.Forall₂ (fun a b => f a = .ok b) l ts := by
  intro l
  induction l with
  | nil =>
    intro ts h
    simp only [List.mapM_nil] at h
    cases h
    exact List.Forall₂.nil
  | cons a as ih =>
    intro ts h
    rw [List.mapM_cons] at h
    cases hfa : f a with
    | error e =>
      simp only [hfa, bind, Except.bind] at h
      cases h
    | ok b =>
      cases hmm : as.mapM f with
      | error e =>
        simp only [hfa, hmm, bind, Except.bind] at h
        cases h
      | ok bs =>
        simp only [hfa, hmm, bind, Except.bind, pure, Except.pure, Except.ok.injEq] at h
        cases h
        exact List.Forall₂.cons hfa (ih hmm)

/-- `mapM` over `Except` of a function that always succeeds. -/
theorem exceptMapM_of_total {E A B : Type} {f : A → Except E B} {g : A → B}
    (hf : ∀ a, f a = .ok (g a)) (l : List A) :
    l.mapM f = .ok (l.map g) := by
  induction l with
  | nil => rfl
  | cons a as ih =>
    rw [List.mapM_cons, hf a]
    simp only [bind, Except.bind, ih, pure, Except.pure, List.map_cons]

/-- `mapM` over `Except` short-circuits at the first failing element:
the result is that element's error, whatever comes after it. -/
theorem exceptMapM_append_error {E A B : Type} {f : A → Except E B}
    {pre suf : List A} {x : A} {e : E}
    (hpre : ∀ a ∈ pre, ∃ b, f a = .ok b) (hx : f x = .error e) :
    (pre ++ x :: suf).mapM f = .error e := by
  induction pre with
  | nil =>
    rw [List.nil_append, List.mapM_cons, hx]
    rfl
  | cons a as ih =>
    obtain ⟨b, hb⟩ := hpre a (List.mem_cons_self a as)
    rw [List.cons_append, List.mapM_cons, hb]
    have hrec := ih fun a ha => hpre a (List.mem_cons_of_mem _ ha)
    simp only [bind, Except.bind, hrec]

/-- `Except.mapError` succeeds exactly when the underlying computation
succeeds, with the same value. -/
theorem mapError_eq_ok {E F A : Type} {g : E → F} {x : Except E A} {a : A} :
    x.mapError g = .ok a ↔ x = .ok a := by
  cases x <;> simp [Except.mapError]

theorem OneOrMany.toList_length (c : OneOrMany T) :
    c.toList.length = c.len := by
  simp [OneOrMany.toList, OneOrMany.len, Nat.add_comm]

/-!
## Claim theorems
-/

/-- C1: Non-emptiness is an invariant of every `OneOrMany<T>` reachable
through the public API: for every container (in particular any produced
by `one`, `many`, `merge`, `map`, `try_map`, or decoding), `len()` equals
`1 + rest.len()` — hence is at least 1 and never zero — and `is_empty()`
returns `false`; `push`, successful `insert`, and element mutation
(`map`) keep producing containers, whose length is again positive. -/
theorem claim_C1_nonempty_invariant (T U : Type) (c : OneOrMany T) (x : T)
    (i : Nat) (f : T → U) :
    c.len = 1 + c.rest.length ∧ 0 < c.len ∧ c.is_empty = false ∧
    (c.push x).len = c.len + 1 ∧
    (∀ r, c.insert i x = some r → r.len = c.len + 1 ∧ 0 < r.len) ∧
    (c.map f).len = c.len := by
  refine ⟨rfl, ?_, rfl, ?_, ?_, ?_⟩
  · simp [OneOrMany.len]
  · simp [OneOrMany.push, OneOrMany.len]
    omega
  · intro r hr
    have h1 : OneOrMany.vecInsert c.toList i x = some r.toList := by
      rw [← OneOrMany.insert_toList, hr]
      rfl
    have h2 := OneOrMany.vecInsert_length h1
    rw [OneOrMany.toList_length, OneOrMany.toList_length] at h2
    exact ⟨h2, by omega⟩
  · simp [OneOrMany.map, OneOrMany.len]

/-- Witness for C1 at a concrete input. -/
theorem claim_C1_nonempty_invariant_witness :
    ((⟨1, [2]⟩ : OneOrMany Nat).insert 1 5 = some ⟨1, [5, 2]⟩) ∧
    (⟨1, [5, 2]⟩ : OneOrMany Nat).len = (⟨1, [2]⟩ : OneOrMany Nat).len + 1 :=
  ⟨by decide,
    ((claim_C1_nonempty_invariant Nat Nat ⟨1, [2]⟩ 5 1 id).2.2.2.2.1
      ⟨1, [5, 2]⟩ (by decide)).1⟩

/-- C2: `many v` fails with `EmptyListError` when `v` is empty; when `v`
is non-empty it succeeds with `first` equal to `v`'s first element and
`rest` equal to the remaining elements in order, so the length equals
`v.length` and every iteration mode yields exactly `v`'s elements in
their original order. -/
theorem claim_C2_many_spec (T : Type) (v : List T) :
    (v = [] → OneOrMany.many v = .error .mk) ∧
    (∀ x xs, v = x :: xs →
      OneOrMany.many v = .ok { first := x, rest := xs }) ∧
    (∀ c, OneOrMany.many v = .ok c →
      c.len = v.length ∧ c.iter.drain = v ∧ c.intoIter.drain = v ∧
      c.iterMut.drain = v) := by
  refine ⟨?_, ?_, ?_⟩
  · intro h
    rw [h]
    rfl
  · intro x xs h
    rw [h]
    rfl
  · intro c hc
    have hv : v = c.toList := OneOrMany.many_eq_ok.mp hc
    subst hv
    exact ⟨(OneOrMany.toList_length c).symm, OneOrMany.iter_drain c,
      OneOrMany.intoIter_drain c, OneOrMany.iterMut_drain c⟩

/-- Witness for C2 at `v = [1, 2, 3]` and `v = []`. -/
theorem claim_C2_many_spec_witness :
    OneOrMany.many ([] : List Nat) = .error .mk ∧
    OneOrMany.many [1, 2, 3] = .ok { first := 1, rest := [2, 3] } ∧
    ({ first := 1, rest := [2, 3] } : OneOrMany Nat).len = 3 ∧
    ({ first := 1, rest := [2, 3] } : OneOrMany Nat).iter.drain = [1, 2, 3] :=
  ⟨(claim_C2_many_spec Nat []).1 rfl,
    (claim_C2_many_spec Nat [1, 2, 3]).2.1 1 [2, 3] rfl,
    ((claim_C2_many_spec Nat [1, 2, 3]).2.2 ⟨1, [2, 3]⟩ rfl).1,
    ((claim_C2_many_spec Nat [1, 2, 3]).2.2 ⟨1, [2, 3]⟩ rfl).2.1⟩

/-- C3: `merge items` concatenates, in input order, the logical sequence
`[first] ++ rest` of each container into one combined sequence and wraps
it; it fails with `EmptyListError` if and only if the outer input list
is itself empty, and succeeds on every non-empty input. -/
theorem claim_C3_merge_spec (T : Type) (items : List (OneOrMany T)) :
    (OneOrMany.merge items = .error .mk ↔ items = []) ∧
    (∀ c, OneOrMany.merge items = .ok c →
      c.toList = items.flatMap OneOrMany.toList) ∧
    (items ≠ [] → ∃ c, OneOrMany.merge items = .ok c) := by
  have hfl : (items.flatMap fun c => c.intoIter.drain) =
      items.flatMap OneOrMany.toList := by
    simp only [OneOrMany.intoIter_drain]
  refine ⟨⟨?_, ?_⟩, ?_, ?_⟩
  · intro h
    cases items with
    | nil => rfl
    | cons c cs =>
      exfalso
      rw [OneOrMany.merge, hfl] at h
      simp [OneOrMany.toList, OneOrMany.many] at h
  · intro h
    rw [h]
    rfl
  · intro c hc
    rw [OneOrMany.merge, hfl] at hc
    exact (OneOrMany.many_eq_ok.mp hc).symm
  · intro hne
    cases items with
    | nil => exact absurd rfl hne
    | cons c cs =>
      refine ⟨{ first := c.first, rest := c.rest ++ cs.flatMap OneOrMany.toList }, ?_⟩
      rw [OneOrMany.merge, hfl]
      simp [OneOrMany.toList, OneOrMany.many]

/-- Witness for C3 at `items = [⟨1, [2]⟩, ⟨3, []⟩]` and `items = []`. -/
theorem claim_C3_merge_spec_witness :
    OneOrMany.merge ([] : List (OneOrMany Nat)) = .error .mk ∧
    (⟨3, [1, 2]⟩ : OneOrMany Nat).toList =
      [(⟨3, []⟩ : OneOrMany Nat), ⟨1, [2]⟩].flatMap OneOrMany.toList ∧
    ∃ c, OneOrMany.merge [(⟨3, []⟩ : OneOrMany Nat), ⟨1, [2]⟩] = .ok c :=
  ⟨(claim_C3_merge_spec Nat []).1.mpr rfl,
    (claim_C3_merge_spec Nat [⟨3, []⟩, ⟨1, [2]⟩]).2.1 ⟨3, [1, 2]⟩
      (by simp [OneOrMany.merge, OneOrMany.intoIter_drain, OneOrMany.toList,
        OneOrMany.many]),
    (claim_C3_merge_spec Nat [⟨3, []⟩, ⟨1, [2]⟩]).2.2 (by decide)⟩

/-- C6: encoding always emits a sequence containing `first` followed by
the elements of `rest`, in that order, with length at least 1 (equal to
`len`); it never emits a bare scalar or a keyed value — in particular a
one-element container serializes as a one-element sequence. -/
theorem claim_C6_serialize_shape (T : Type) (encT : T → Value) (c : OneOrMany T) :
    OneOrMany.serialize encT c = .arr ((c.first :: c.rest).map encT) ∧
    ((c.first :: c.rest).map encT).length = c.len ∧
    0 < ((c.first :: c.rest).map encT).length ∧
    OneOrMany.serialize encT (OneOrMany.one c.first) = .arr [encT c.first] := by
  refine ⟨?_, ?_, ?_, ?_⟩
  · rw [OneOrMany.serialize, OneOrMany.iter_drain]
    rfl
  · rw [List.length_map, ← OneOrMany.toList, OneOrMany.toList_length]
  · simp
  · rw [OneOrMany.serialize, OneOrMany.iter_drain]
    rfl

/-- C8: all three iteration protocols — by reference, by mutable
reference, and by value — yield the same logical sequence in the same
fixed order: `first` exactly once, then the elements of `rest` in
original order, for a total of exactly `len()` elements, after which
`next` yields nothing (draining stops only at `none`). -/
theorem claim_C8_iteration_order (T : Type) (c : OneOrMany T) :
    c.iter.drain = c.first :: c.rest ∧
    c.intoIter.drain = c.first :: c.rest ∧
    c.iterMut.drain = c.first :: c.rest ∧
    c.iter.drain.length = c.len := by
  refine ⟨OneOrMany.iter_drain c, OneOrMany.intoIter_drain c,
    OneOrMany.iterMut_drain c, ?_⟩
  rw [OneOrMany.iter_drain, OneOrMany.toList_length]

/-- C9: `insert(0, item)` makes `item` the new `first` and pushes the
previous `first` to the front of `rest` (so `first=a, rest=[b,c]` becomes
`first=y, rest=[a,b,c]` after `insert(0, y)`); `insert(index, item)` with
`index > 0` inserts `item` into `rest` at position `index - 1`, i.e. at
logical position `index`, preserving the relative order of all existing
elements. -/
theorem claim_C9_insert_positions (T : Type) (c : OneOrMany T) (x y : T) (i : Nat) :
    c.insert 0 y = some { first := y, rest := c.first :: c.rest } ∧
    (∀ a b d : T, (OneOrMany.mk a [b, d]).insert 0 y = some (OneOrMany.mk y [a, b, d])) ∧
    (0 < i → ∀ r, c.insert i x = some r →
      r.first = c.first ∧
      OneOrMany.vecInsert c.rest (i - 1) x = some r.rest ∧
      r.toList = c.toList.take i ++ x :: c.toList.drop i) := by
  refine ⟨?_, ?_, ?_⟩
  · simp [OneOrMany.insert, OneOrMany.vecInsert]
  · intro a b d
    simp [OneOrMany.insert, OneOrMany.vecInsert]
  intro hi r hr
  obtain ⟨j, rfl⟩ : ∃ j, i = j + 1 := ⟨i - 1, by omega⟩
  have h1 : OneOrMany.vecInsert c.toList (j + 1) x = some r.toList := by
    rw [← OneOrMany.insert_toList, hr]
    rfl
  have h2 := OneOrMany.vecInsert_eq_some h1
  rw [OneOrMany.insert, if_neg (by omega)] at hr
  obtain ⟨rs, hrs, heq⟩ := Option.map_eq_some'.mp hr
  refine ⟨?_, ?_, h2⟩
  · rw [← heq]
  · rw [← heq]
    simpa using hrs

/-- Witness for C9 at `c = ⟨1, [2, 3]⟩`, `i = 2`, `x = 9`, `y = 0`. -/
theorem claim_C9_insert_positions_witness :
    (⟨1, [2, 3]⟩ : OneOrMany Nat).insert 0 0 = some ⟨0, [1, 2, 3]⟩ ∧
    (⟨1, [2, 9, 3]⟩ : OneOrMany Nat).toList =
      (⟨1, [2, 3]⟩ : OneOrMany Nat).toList.take 2 ++
        9 :: (⟨1, [2, 3]⟩ : OneOrMany Nat).toList.drop 2 := by
  refine ⟨(claim_C9_insert_positions Nat ⟨1, [2, 3]⟩ 9 0 2).1, ?_⟩
  have h := ((claim_C9_insert_positions Nat ⟨1, [2, 3]⟩ 9 0 2).2.2
    (by decide) ⟨1, [2, 9, 3]⟩ (by decide)).2.2
  simpa using h

/-- C10: for every container `c` of length `n`, item `x`, and index `i`:
`insert(i, x)` completes (does not panic) precisely when `i ≤ n`
(including the boundary `i = n`, which appends at the end), leaving the
logical sequence equal to the old one with `x` inserted at position `i`
and length `n + 1`; for every `i > n` the call panics (modelled as
`none`) via the underlying `Vec::insert` bounds check, producing no
modified container. -/
theorem claim_C10_insert_bounds (T : Type) (c : OneOrMany T) (x : T) (i : Nat) :
    ((c.insert i x).isSome = true ↔ i ≤ c.len) ∧
    (c.insert i x).map OneOrMany.toList = OneOrMany.vecInsert c.toList i x ∧
    (∀ r, c.insert i x = some r →
      r.toList = c.toList.take i ++ x :: c.toList.drop i ∧ r.len = c.len + 1) ∧
    (c.len < i → c.insert i x = none) := by
  have hmap := OneOrMany.insert_toList c i x
  refine ⟨?_, hmap, ?_, ?_⟩
  · have hsome : (c.insert i x).isSome = (OneOrMany.vecInsert c.toList i x).isSome := by
      rw [← hmap]
      cases c.insert i x <;> rfl
    rw [hsome, OneOrMany.vecInsert_isSome, OneOrMany.toList_length]
  · intro r hr
    have h1 : OneOrMany.vecInsert c.toList i x = some r.toList := by
      rw [← hmap, hr]
      rfl
    refine ⟨OneOrMany.vecInsert_eq_some h1, ?_⟩
    have h2 := OneOrMany.vecInsert_length h1
    rw [OneOrMany.toList_length, OneOrMany.toList_length] at h2
    exact h2
  · intro hlt
    cases hr : c.insert i x with
    | none => rfl
    | some r =>
      exfalso
      have hs : (OneOrMany.vecInsert c.toList i x).isSome = true := by
        rw [← hmap, hr]
        rfl
      rw [OneOrMany.vecInsert_isSome, OneOrMany.toList_length] at hs
      omega

/-- Witness for C10 at `c = ⟨1, [2]⟩` (`n = 2`): `i = 2` appends,
`i = 3` panics. -/
theorem claim_C10_insert_bounds_witness :
    ((⟨1, [2]⟩ : OneOrMany Nat).insert 2 7).isSome = true ∧
    (⟨1, [2, 7]⟩ : OneOrMany Nat).len = (⟨1, [2]⟩ : OneOrMany Nat).len + 1 ∧
    (⟨1, [2]⟩ : OneOrMany Nat).insert 3 7 = none :=
  ⟨(claim_C10_insert_bounds Nat ⟨1, [2]⟩ 7 2).1.mpr (by decide),
    ((claim_C10_insert_bounds Nat ⟨1, [2]⟩ 7 2).2.2.1 ⟨1, [2, 7]⟩ (by decide)).2,
    (claim_C10_insert_bounds Nat ⟨1, [2]⟩ 7 3).2.2.2 (by decide)⟩

theorem mapError_ok_eq {E F A : Type} {g : E → F} {a : A} :
    (Except.ok a : Except E A).mapError g = .ok a := rfl

theorem mapError_error_eq {E F A : Type} {g : E → F} {e : E} :
    (Except.error e : Except E A).mapError g = (.error (g e) : Except F A) := rfl

/-- If each successfully decoded element re-encodes to its wire value,
a pointwise-successful decode of a list re-encodes to the original list. -/
theorem map_of_forall2_inv {E T : Type} {decT : Value → Except E T} {encT : T → Value}
    (hinv : ∀ v t, decT v = .ok t → encT t = v) :
    ∀ {vs : List Value} {ts : List T},
      List.Forall₂ (fun v t => decT v = .ok t) vs ts → ts.map encT = vs := by
  intro vs ts h
  induction h with
  | nil => rfl
  | cons h1 h2 ih => simp [List.map_cons, hinv _ _ h1, ih]

/-- C4: decoding dispatches on the incoming wire shape: a bare scalar
(string) decodes to a one-element container whose sole element is
obtained by applying `T`'s own decode rules to that scalar (errors from
`T`'s decoder propagate), and decoding an empty sequence fails with an
invalid-length error (expected at least one element, got zero). -/
theorem claim_C4_decode_scalar_and_empty_seq (T E : Type)
    (decT : Value → Except E T) (s : String) :
    (∀ t, decT (.str s) = .ok t →
      OneOrMany.deserialize decT (.str s) = .ok (OneOrMany.one t)) ∧
    (∀ e, decT (.str s) = .error e →
      OneOrMany.deserialize decT (.str s) = .error (.elem e)) ∧
    OneOrMany.deserialize decT (.arr []) =
      .error (.invalidLength 0 oneOrManyExpecting) := by
  refine ⟨?_, ?_, rfl⟩
  · intro t ht
    simp [OneOrMany.deserialize, ht, Except.mapError, Except.map]
  · intro e he
    simp [OneOrMany.deserialize, he, Except.mapError, Except.map]

/-- Witness for C4 with a string codec at input `"hello"` and `[]`. -/
theorem claim_C4_decode_scalar_and_empty_seq_witness :
    OneOrMany.deserialize (fun v => match v with
      | Value.str s => Except.ok s
      | _ => Except.error ()) (.str "hello") = .ok (OneOrMany.one "hello") ∧
    OneOrMany.deserialize (fun v => match v with
      | Value.str s => Except.ok s
      | _ => Except.error ()) (.arr []) =
      .error (.invalidLength 0 oneOrManyExpecting) :=
  ⟨(claim_C4_decode_scalar_and_empty_seq String Unit (fun v => match v with
      | Value.str s => Except.ok s
      | _ => Except.error ()) "hello").1 "hello" rfl,
    (claim_C4_decode_scalar_and_empty_seq String Unit (fun v => match v with
      | Value.str s => Except.ok s
      | _ => Except.error ()) "hello").2.2⟩

/-- C5: for every non-empty sequence literal, decoding it into a
`OneOrMany<T>` and then encoding the result reproduces the literal —
same elements, same order, emitted as a sequence — provided `T`'s own
codec re-encodes every successfully decoded element to its wire value. -/
theorem claim_C5_roundtrip (T E : Type) (decT : Value → Except E T)
    (encT : T → Value)
    (hinv : ∀ v t, decT v = .ok t → encT t = v)
    (vs : List Value) (c : OneOrMany T)
    (h : OneOrMany.deserialize decT (.arr vs) = .ok c) :
    OneOrMany.serialize encT c = .arr vs := by
  cases vs with
  | nil => simp [OneOrMany.deserialize, OneOrMany.visitSeq] at h
  | cons v rest =>
    simp only [OneOrMany.deserialize, OneOrMany.visitSeq] at h
    cases hdv : decT v with
    | error e =>
      rw [hdv, mapError_error_eq] at h
      simp at h
    | ok t =>
      rw [hdv, mapError_ok_eq] at h
      cases hmm : rest.mapM fun v => (decT v).mapError DeError.elem with
      | error e =>
        rw [hmm] at h
        simp at h
      | ok ts =>
        rw [hmm] at h
        simp only [Except.ok.injEq] at h
        subst h
        have hts : ts.map encT = rest :=
          map_of_forall2_inv hinv
            ((exceptMapM_ok hmm).imp fun a b hab => mapError_eq_ok.mp hab)
        rw [OneOrMany.serialize, OneOrMany.iter_drain]
        simp [OneOrMany.toList, hinv _ _ hdv, hts]

/-- Witness for C5 with the identity codec on `Value` at the sequence
`["a", "b"]`. -/
theorem claim_C5_roundtrip_witness :
    OneOrMany.serialize id (⟨Value.str "a", [Value.str "b"]⟩ : OneOrMany Value) =
      .arr [Value.str "a", Value.str "b"] :=
  claim_C5_roundtrip Value Unit Except.ok id
    (fun v t h => by cases h; rfl)
    [Value.str "a", Value.str "b"] ⟨Value.str "a", [Value.str "b"]⟩ rfl

/-- C7: `try_map(op)` applies `op` to `first` before any element of
`rest`: if `op` fails on `first`, that error is propagated and the
result is independent of `op`'s behaviour on `rest`; in general it
applies `op` in order, short-circuits at the first failing element with
that element's error (whatever comes after it), discards partial
results, and on full success returns a container of identical length
holding the results in order. -/
theorem claim_C7_tryMap_short_circuit (T U E : Type) (op : T → Except E U)
    (c : OneOrMany T) :
    (∀ e, op c.first = .error e → c.tryMap op = .error e) ∧
    (∀ e uf pre z suf, c.rest = pre ++ z :: suf →
      op c.first = .ok uf →
      (∀ a ∈ pre, ∃ u, op a = .ok u) →
      op z = .error e →
      c.tryMap op = .error e) ∧
    (∀ g : T → U, (∀ t, op t = .ok (g t)) →
      c.tryMap op = .ok (c.map g) ∧ (c.map g).len = c.len) := by
  refine ⟨?_, ?_, ?_⟩
  · intro e he
    rw [OneOrMany.tryMap, he]
  · intro e uf pre z suf hrest hf hpre hz
    rw [OneOrMany.tryMap, hf, hrest, exceptMapM_append_error hpre hz]
  · intro g hg
    constructor
    · rw [OneOrMany.tryMap, hg c.first, exceptMapM_of_total hg c.rest]
      rfl
    · simp [OneOrMany.map, OneOrMany.len]

/-- Witness for C7 at `c = ⟨2, [4, 3, 5]⟩` with an operation failing on
odd numbers: it fails at the element `3` (and, when `first` is odd, at
`first` immediately). -/
theorem claim_C7_tryMap_short_circuit_witness :
    OneOrMany.tryMap
      (fun n => if n % 2 = 0 then Except.ok (n + 1) else Except.error n)
      (⟨2, [4, 3, 5]⟩ : OneOrMany Nat) = .error 3 ∧
    OneOrMany.tryMap
      (fun n => if n % 2 = 0 then Except.ok (n + 1) else Except.error n)
      (⟨7, [4]⟩ : OneOrMany Nat) = .error 7 :=
  ⟨(claim_C7_tryMap_short_circuit Nat Nat Nat
      (fun n => if n % 2 = 0 then Except.ok (n + 1) else Except.error n)
      ⟨2, [4, 3, 5]⟩).2.1 3 3 [4] 3 [5] rfl rfl
      (by
        intro a ha
        rw [List.mem_singleton] at ha
        subst ha
        exact ⟨5, rfl⟩) rfl,
    (claim_C7_tryMap_short_circuit Nat Nat Nat
      (fun n => if n % 2 = 0 then Except.ok (n + 1) else Except.error n)
      ⟨7, [4]⟩).1 7 rfl⟩
